import Mathlib

/-!
Verification development for the `git-prep-directory` repository.

We shallowly embed the Go code of `git.go`, `git-prep-directory.go` and the
submodule-handling file (package `git`) into Lean.  External processes
(`git clone`, `git fetch`, `git cat-file`, `git ls-tree`, `rm -rf`, mkdir)
are modelled by oracle parameters describing their outcomes; the pure logic
around them (the freshness test, exit-status classification, error
aggregation, path construction, tree-entry parsing, the cleanup guard) is
translated line by line from the source.
-/

namespace GitPrep

/-! ### Go error values

Go code in this repository compares errors by their `Error()` string
(e.g. `err.Error() != "exit status 1"` in `Fetch`).  We model the error
values structurally and give them the `Error()` rendering `errString`. -/

/-- Decimal digit character for `n < 10` (used to render exit statuses). -/
def digitChar (n : Nat) : Char := Char.ofNat (48 + n)

/-- Decimal digits of `n`, most significant first, with explicit fuel so the
definition is structurally recursive (any fuel above the digit count gives
the digits; `natDec` passes `n + 1`). -/
def decDigitsAux : Nat → Nat → List Char
  | 0, _ => []
  | fuel + 1, n =>
    if n < 10 then [digitChar n]
    else decDigitsAux fuel (n / 10) ++ [digitChar (n % 10)]

/-- Decimal rendering of a natural number (as Go's `strconv.Itoa`). -/
def natDec (n : Nat) : String := String.mk (decDigitsAux (n + 1) n)

/-- Value of a digit list, used to prove `natDec` injective. -/
def decVal (l : List Char) : Nat := l.foldl (fun a c => 10 * a + (c.toNat - 48)) 0

/-- Errors produced by the embedded code.  `exitStatus n` is the error of an
external process exiting with status `n`; `ctxCanceled` / `ctxDeadlineExceeded`
are the two context errors; `osError` stands for filesystem errors;
`invalidPath p` models `fmt.Errorf("invalid path specified for deletion %q", p)`
from `SafeCleanup`. -/
inductive GoError
  | exitStatus (n : Nat)
  | ctxCanceled
  | ctxDeadlineExceeded
  | osError (msg : String)
  | invalidPath (p : String)
deriving DecidableEq

/-- The `Error()` string of a `GoError`, as Go renders it. -/
def GoError.errString : GoError → String
  | .exitStatus n => "exit status " ++ natDec n
  | .ctxCanceled => "context canceled"
  | .ctxDeadlineExceeded => "context deadline exceeded"
  | .osError msg => msg
  | .invalidPath p => "invalid path specified for deletion " ++ p

/-! ### ContextRun

`ContextRun` starts the command, waits for it in a goroutine, and selects
between context completion and process completion.  The race between the two
is a scheduling fact external to the code, so it enters the model as a
`RaceOutcome` parameter; the function's own logic (kill on context done,
which error to return) is translated directly. -/

/-- Which of the two `select` arms of `ContextRun` fires first. -/
inductive RaceOutcome
  | ctxDone (e : GoError)
  | procDone (r : Option GoError)

/-- `ContextRun cmdStart race` returns (process killed?, returned error).
`cmdStart` is the result of `cmd.Start()`; if it fails, that error is
returned at once.  Otherwise, if the context finishes first the process is
killed and `ctx.Err()` is returned; if the process finishes first its own
`Wait` result (possibly `none`) is returned unchanged. -/
def ContextRun (cmdStart : Option GoError) (race : RaceOutcome) :
    Bool × Option GoError :=
  match cmdStart with
  | some e => (false, some e)
  | none =>
    match race with
    | .ctxDone e => (true, some e)
    | .procDone r => (false, r)

/-! ### Fetch

`Fetch` runs `git fetch -f url *:*` through `ContextRun` and treats the
error whose string is exactly "exit status 1" (fetch performed, nothing
new) as success. -/

/-- `Fetch runRes` classifies the `ContextRun` result of the fetch process:
`nil` stays `nil`, the error reading "exit status 1" is turned into `nil`,
every other error is propagated. -/
def Fetch (runRes : Option GoError) : Option GoError :=
  match runRes with
  | none => none
  | some e => if e.errString = "exit status 1" then none else some e

/-! ### ShaLike and AlreadyHaveRef

The source declares `var ShaLike = regexp.MustCompile("[0-9a-zA-Z]{40}")`
and uses `ShaLike.MatchString(sha)`.  `MatchString` is unanchored: it
succeeds iff the string contains 40 consecutive characters from the class
`[0-9a-zA-Z]`.  We model the character class and the run search directly. -/

/-- The regexp character class `[0-9a-zA-Z]`. -/
def isAlnumASCII (c : Char) : Bool :=
  (48 ≤ c.toNat && c.toNat ≤ 57) ||
  (65 ≤ c.toNat && c.toNat ≤ 90) ||
  (97 ≤ c.toNat && c.toNat ≤ 122)

/-- Searches for a run of 40 consecutive `[0-9a-zA-Z]` characters; `cur` is
the length of the run ending just before the remaining input. -/
def alnumRunAux : Nat → List Char → Bool
  | cur, [] => 40 ≤ cur
  | cur, c :: rest =>
    if 40 ≤ cur then true
    else if isAlnumASCII c then alnumRunAux (cur + 1) rest
    else alnumRunAux 0 rest

/-- `ShaLike.MatchString s`: `s` contains 40 consecutive `[0-9a-zA-Z]`
characters. -/
def ShaLikeMatch (s : String) : Bool := alnumRunAux 0 s.data

/-- An ASCII hexadecimal digit (`0-9`, `a-f`, `A-F`). -/
def isHexDigit (c : Char) : Bool :=
  (48 ≤ c.toNat && c.toNat ≤ 57) ||
  (97 ≤ c.toNat && c.toNat ≤ 102) ||
  (65 ≤ c.toNat && c.toNat ≤ 70)

/-- Modelled from the spec: the "fixed-width hexadecimal commit-id test" — a
string of exactly the canonical revision-id length (40) consisting solely of
hexadecimal digits.  This is the spec's notion of a content-addressed
identifier, written here to compare with the code's `ShaLikeMatch`. -/
def isHexCommitId (s : String) : Bool :=
  s.data.length = 40 && s.data.all isHexDigit

/-! ### The mirror state and LocalMirror

`LocalMirror` consults the filesystem (`os.Stat`) and the local object
store (`git cat-file -t`), and possibly performs one network operation
(mirror clone, or fetch of all refs).  We model the local mirror by which
names `git cat-file -t` would resolve in it, the remote by the set of names
a successful clone/fetch makes resolvable, and record the network
operations performed. -/

/-- State of the local mirror directory: whether the directory exists
(`os.Stat` succeeds) and which names `git cat-file -t` resolves in it. -/
structure MirrorState where
  dirExists : Bool
  resolvable : List String
deriving DecidableEq

/-- A network operation performed by `LocalMirror`. -/
inductive NetOp
  | clone
  | fetch
deriving DecidableEq

/-- Outcomes of the external processes `LocalMirror` may run: the
`ContextRun` results of the clone and fetch processes, whether
`os.MkdirAll` succeeds, and the names the remote makes resolvable on a
successful transfer. -/
structure GitEnv where
  cloneRun : Option GoError
  fetchRun : Option GoError
  mkdirOk : Bool
  remoteNames : List String

/-- `AlreadyHaveRef gitDir sha` returns true if `sha` matches `ShaLike` and
`git cat-file -t sha` succeeds in the mirror. -/
def AlreadyHaveRef (st : MirrorState) (sha : String) : Bool :=
  if !ShaLikeMatch sha then false
  else st.resolvable.contains sha

/-- `LocalMirror`: if the mirror directory exists and `AlreadyHaveRef`
holds, return nil with no network operation; if it exists otherwise, run
`Fetch`; if it does not exist, `os.MkdirAll` the parent and run `Clone`
(whose result is the `ContextRun` result of the clone process).  Returns
the new mirror state, the network operations performed, and the error
result.  A successful clone replaces the mirror's contents by the remote's
names; a successful fetch (exit 0) adds them; a fetch with nothing new
(exit 1) or a failed transfer leaves the state unchanged. -/
def LocalMirror (env : GitEnv) (st : MirrorState) (ref : String) :
    MirrorState × List NetOp × Option GoError :=
  if st.dirExists then
    if AlreadyHaveRef st ref then (st, [], none)
    else
      let st' := if env.fetchRun = none then
          { st with resolvable := st.resolvable ++ env.remoteNames }
        else st
      (st', [NetOp.fetch], Fetch env.fetchRun)
  else if !env.mkdirOk then (st, [], some (.osError "mkdir"))
  else
    let st' := if env.cloneRun = none then
        { dirExists := true, resolvable := env.remoteNames }
      else st
    (st', [NetOp.clone], env.cloneRun)

/-! ### Submodules -/

/-- A submodule: path and url from `.gitmodules`, revision filled in later
by `GetSubmoduleRevs`. -/
structure Submodule where
  Path : String
  URL : String
  Rev : String
deriving DecidableEq

/-- Result of `ini.LoadFile(.gitmodules)` as `PrepSubmodules` distinguishes
it: the file is genuinely missing (`os.IsNotExist`), or some other
read/parse error occurred. -/
inductive FileError
  | notExist
  | otherError (msg : String)
deriving DecidableEq

/-- Go's `unicode.IsSpace` on the characters it recognizes
(`\t \n \v \f \r ' '` and the two Latin-1 spaces). -/
def goIsSpace (c : Char) : Bool :=
  c.toNat = 9 || c.toNat = 10 || c.toNat = 11 || c.toNat = 12 ||
  c.toNat = 13 || c.toNat = 32 || c.toNat = 133 || c.toNat = 160

/-- Worker for `goFields`: `cur` is the reversed current word. -/
def fieldsAux : List Char → List Char → List String
  | cur, [] => if cur.isEmpty then [] else [String.mk cur.reverse]
  | cur, c :: rest =>
    if goIsSpace c then
      if cur.isEmpty then fieldsAux [] rest
      else String.mk cur.reverse :: fieldsAux [] rest
    else fieldsAux (c :: cur) rest

/-- Go's `strings.Fields`: the maximal runs of non-whitespace characters. -/
def goFields (s : String) : List String := fieldsAux [] s.data

/-- Result of `GetSubmoduleRev`: a revision, an error from the `ls-tree`
process, or a Go runtime panic (index out of range). -/
inductive RevResult
  | ok (rev : String)
  | err (e : GoError)
  | panicked (msg : String)
deriving DecidableEq

/-- `GetSubmoduleRev` runs `git ls-tree mainRev -- submodulePath` (its
output enters the model as `lsTreeOut`) and returns
`strings.Fields(output)[2]`.  Go's indexing panics when the output has
fewer than three fields; the model records that as `panicked`. -/
def GetSubmoduleRev (lsTreeOut : Except GoError String) : RevResult :=
  match lsTreeOut with
  | .error e => .err e
  | .ok out =>
    match (goFields out)[2]? with
    | some tok => .ok tok
    | none => .panicked "index out of range"

/-- Result of `GetSubmoduleRevs` over a list of submodules. -/
inductive RevsResult
  | ok (l : List Submodule)
  | err (e : GoError)
  | panicked (msg : String)
deriving DecidableEq

/-- `GetSubmoduleRevs` fills in `Rev` for each submodule in order,
returning the first failure; `lsTree` gives the `ls-tree` output for each
submodule path. -/
def GetSubmoduleRevs (lsTree : String → Except GoError String) :
    List Submodule → RevsResult
  | [] => .ok []
  | sm :: rest =>
    match GetSubmoduleRev (lsTree sm.Path) with
    | .err e => .err e
    | .panicked m => .panicked m
    | .ok rev =>
      match GetSubmoduleRevs lsTree rest with
      | .err e => .err e
      | .panicked m => .panicked m
      | .ok rest' => .ok ({ sm with Rev := rev } :: rest')

/-- `MultipleErrors` drains the channel (modelled as the list of deposited
outcomes), keeping only the non-nil ones; zero non-nil errors is success,
otherwise the composite `ErrMultiple` (modelled as the collected list). -/
def MultipleErrors {ε : Type} (errs : List (Option ε)) : Option (List ε) :=
  let collected := errs.filterMap id
  if collected.length = 0 then none else some collected

/-- An error returned by `PrepSubmodules`: a `.gitmodules` read error, a
`GetSubmoduleRevs` error, or the composite of per-submodule failures, each
annotated with the submodule's path
(`fmt.Errorf("processing %v: %v", submodule.Path, err)`). -/
inductive PrepError
  | gitmodules (msg : String)
  | getRevs (e : GoError)
  | multiple (errs : List (String × GoError))
deriving DecidableEq

/-- Outcome of `PrepSubmodules`: success carrying the submodules actually
processed, an error, or a propagated panic. -/
inductive PrepOutcome
  | ok (work : List Submodule)
  | err (e : PrepError)
  | panicked (msg : String)
deriving DecidableEq

/-- `PrepSubmodules`: parse `.gitmodules` (`parsed` is the `ParseSubmodules`
result); a missing file means no submodules and immediate success; any
other error is returned.  Then `GetSubmoduleRevs` pins every submodule; on
success every submodule is prepped (`prep` gives each worker's
`prepSubmodule` outcome), each non-nil error is annotated with the
submodule's path and deposited, and `MultipleErrors` drains the channel. -/
def PrepSubmodules (parsed : Except FileError (List Submodule))
    (lsTree : String → Except GoError String)
    (prep : Submodule → Option GoError) : PrepOutcome :=
  match parsed with
  | .error .notExist => .ok []
  | .error (.otherError m) => .err (.gitmodules m)
  | .ok submodules =>
    match GetSubmoduleRevs lsTree submodules with
    | .err e => .err (.getRevs e)
    | .panicked m => .panicked m
    | .ok pinned =>
      let outcomes := pinned.map fun sm => (prep sm).map fun e => (sm.Path, e)
      match MultipleErrors outcomes with
      | none => .ok pinned
      | some l => .err (.multiple l)

/-! ### PrepBuildDirectory's checkout path and SafeCleanup -/

/-- Does the string end in a slash? -/
def endsWithSlash (s : String) : Bool :=
  match s.data.getLast? with
  | some '/' => true
  | _ => false

/-- Joining of already-clean path components, as `path.Join` /
`filepath.Join` behave on the cleaned inputs used here (an absolute
`gitDir` from `filepath.Abs` and the relative `c/<shortRev>`). -/
def goPathJoin (a b : String) : String :=
  if a = "" then b
  else if endsWithSlash a then a ++ b
  else a ++ "/" ++ b

/-- `shortRev := rev[:10]` — the first 10 bytes of the revision (all
revisions here are ASCII hex, so bytes coincide with characters). -/
def shortRev (rev : String) : String := String.mk (rev.data.take 10)

/-- `checkoutPath := path.Join(gitDir, filepath.Join("c/", shortRev))` from
`PrepBuildDirectory`. -/
def checkoutPath (gitDir rev : String) : String :=
  goPathJoin gitDir (goPathJoin "c/" (shortRev rev))

/-- Does `s` contain `sub` as a substring (Go's `strings.Contains`)? -/
def listContainsSub (sub : List Char) : List Char → Bool
  | [] => sub.isEmpty
  | c :: rest => sub.isPrefixOf (c :: rest) || listContainsSub sub rest

/-- Go's `strings.Contains s sub`. -/
def goContains (s sub : String) : Bool := listContainsSub sub.data s.data

/-- A filesystem mutation performed by `SafeCleanup`. -/
inductive FsAction
  | removeAll (p : String)
deriving DecidableEq

/-- `SafeCleanup`: refuse `/`, the empty path, `.` and any path containing
`..`, removing nothing; otherwise call `os.RemoveAll(path)` (whose outcome
enters the model as `removeAllRes`) and return its result. -/
def SafeCleanup (removeAllRes : Option GoError) (path : String) :
    List FsAction × Option GoError :=
  if path = "/" || path = "" || path = "." || goContains path ".." then
    ([], some (.invalidPath path))
  else ([FsAction.removeAll path], removeAllRes)

/-! ### Concrete data used to instantiate the theorems -/

/-- Three sibling submodules as parsed from a `.gitmodules` file. -/
def subsW : List Submodule :=
  [⟨"libs/a", "https://example.com/a", ""⟩,
   ⟨"libs/b", "https://example.com/b", ""⟩,
   ⟨"libs/c", "https://example.com/c", ""⟩]

/-- An `ls-tree` oracle answering every path with a well-formed gitlink
entry pinning it to revision `beef`. -/
def lsTreeW : String → Except GoError String :=
  fun p => .ok ("160000 commit beef\t" ++ p)

/-- A per-submodule preparation oracle where exactly `libs/b` fails. -/
def prepW : Submodule → Option GoError :=
  fun sm => if sm.Path = "libs/b" then some (.exitStatus 128) else none

/-- `subsW` with the revision filled in by `GetSubmoduleRevs` under
`lsTreeW`. -/
def pinnedW : List Submodule :=
  [⟨"libs/a", "https://example.com/a", "beef"⟩,
   ⟨"libs/b", "https://example.com/b", "beef"⟩,
   ⟨"libs/c", "https://example.com/c", "beef"⟩]

/-! ## Helper lemmas -/

theorem string_data_inj {s t : String} (h : s.data = t.data) : s = t := by
  cases s
  cases t
  exact congrArg String.mk h

theorem decVal_digitChar {d : Nat} (h : d < 10) : (digitChar d).toNat - 48 = d := by
  interval_cases d <;> decide

theorem decVal_append_digit (xs : List Char) (c : Char) :
    decVal (xs ++ [c]) = 10 * decVal xs + (c.toNat - 48) := by
  simp [decVal, List.foldl_append]

theorem decVal_decDigitsAux : ∀ fuel n, n < fuel → decVal (decDigitsAux fuel n) = n := by
  intro fuel
  induction fuel with
  | zero => intro n h; omega
  | succ f ih =>
    intro n h
    rw [decDigitsAux]
    split
    · rename_i h10
      simp [decVal, decVal_digitChar h10]
    · rename_i h10
      rw [decVal_append_digit, ih (n / 10) (by omega),
        decVal_digitChar (Nat.mod_lt _ (by omega))]
      omega

theorem natDec_inj {m n : Nat} (h : natDec m = natDec n) : m = n := by
  have hd : decDigitsAux (m + 1) m = decDigitsAux (n + 1) n := congrArg String.data h
  have := congrArg decVal hd
  rwa [decVal_decDigitsAux _ _ (by omega), decVal_decDigitsAux _ _ (by omega)] at this

theorem exit_errString_eq_one {n : Nat} :
    (GoError.exitStatus n).errString = "exit status 1" ↔ n = 1 := by
  constructor
  · intro h
    have h1 : (GoError.exitStatus n).errString = "exit status " ++ natDec 1 := h
    simp only [GoError.errString] at h1
    have hd := congrArg String.data h1
    rw [String.data_append, String.data_append] at hd
    have : (natDec n).data = (natDec 1).data := List.append_cancel_left hd
    exact natDec_inj (string_data_inj this)
  · intro h
    subst h
    rfl

theorem isAlnum_of_isHex {c : Char} (h : isHexDigit c = true) :
    isAlnumASCII c = true := by
  simp only [isHexDigit, Bool.or_eq_true, Bool.and_eq_true, decide_eq_true_eq] at h
  simp only [isAlnumASCII, Bool.or_eq_true, Bool.and_eq_true, decide_eq_true_eq]
  omega

theorem alnumRunAux_of_all : ∀ (l : List Char) (cur : Nat), 40 ≤ cur + l.length →
    (∀ c ∈ l, isAlnumASCII c = true) → alnumRunAux cur l = true := by
  intro l
  induction l with
  | nil =>
    intro cur h _
    simp only [alnumRunAux, decide_eq_true_eq]
    simpa using h
  | cons c t ih =>
    intro cur h hall
    rw [alnumRunAux]
    split
    · rfl
    · rw [if_pos (hall c (List.mem_cons_self c t))]
      exact ih (cur + 1) (by simp at h ⊢; omega)
        (fun d hd => hall d (List.mem_cons_of_mem _ hd))

theorem shaLike_of_hexCommitId {s : String} (h : isHexCommitId s = true) :
    ShaLikeMatch s = true := by
  simp only [isHexCommitId, Bool.and_eq_true, decide_eq_true_eq,
    List.all_eq_true] at h
  exact alnumRunAux_of_all s.data 0 (by omega)
    (fun c hc => isAlnum_of_isHex (h.2 c hc))

theorem string_append_left_cancel {s t₁ t₂ : String} :
    s ++ t₁ = s ++ t₂ ↔ t₁ = t₂ := by
  constructor
  · intro h
    have hd := congrArg String.data h
    rw [String.data_append, String.data_append] at hd
    exact string_data_inj (List.append_cancel_left hd)
  · intro h
    rw [h]

theorem goPathJoin_right_inj (a : String) {b₁ b₂ : String} :
    goPathJoin a b₁ = goPathJoin a b₂ ↔ b₁ = b₂ := by
  unfold goPathJoin
  split
  · exact Iff.rfl
  · split
    · exact string_append_left_cancel
    · exact string_append_left_cancel

theorem string_mk_data (s : String) : String.mk s.data = s := by
  cases s
  rfl

theorem fieldsAux_nonspace : ∀ (w cur rest : List Char),
    (∀ c ∈ w, goIsSpace c = false) →
    fieldsAux cur (w ++ rest) = fieldsAux (w.reverse ++ cur) rest := by
  intro w
  induction w with
  | nil =>
    intro cur rest _
    simp
  | cons c t ih =>
    intro cur rest hall
    have hc : goIsSpace c = false := hall c (List.mem_cons_self c t)
    rw [List.cons_append, fieldsAux, if_neg (by simp [hc])]
    rw [ih (c :: cur) rest (fun d hd => hall d (List.mem_cons_of_mem _ hd))]
    simp [List.append_assoc]

theorem fieldsAux_space {c : Char} (hc : goIsSpace c = true) {cur : List Char}
    (hcur : cur ≠ []) (rest : List Char) :
    fieldsAux cur (c :: rest) = String.mk cur.reverse :: fieldsAux [] rest := by
  rw [fieldsAux, if_pos (by simp [hc]), if_neg (by simp [hcur])]

theorem goFields_three_words (w1 w2 w3 p : List Char)
    (h1 : w1 ≠ []) (h1s : ∀ c ∈ w1, goIsSpace c = false)
    (h2 : w2 ≠ []) (h2s : ∀ c ∈ w2, goIsSpace c = false)
    (h3 : w3 ≠ []) (h3s : ∀ c ∈ w3, goIsSpace c = false) :
    fieldsAux [] (w1 ++ ' ' :: (w2 ++ ' ' :: (w3 ++ '\t' :: p)))
      = String.mk w1 :: String.mk w2 :: String.mk w3 :: fieldsAux [] p := by
  rw [fieldsAux_nonspace w1 [] _ h1s, List.append_nil,
    fieldsAux_space (by decide) (by simp [h1]), List.reverse_reverse,
    fieldsAux_nonspace w2 [] _ h2s, List.append_nil,
    fieldsAux_space (by decide) (by simp [h2]), List.reverse_reverse,
    fieldsAux_nonspace w3 [] _ h3s, List.append_nil,
    fieldsAux_space (by decide) (by simp [h3]), List.reverse_reverse]

/-! ## Claim theorems -/

/-- Claim C3: `Fetch` returns success when the fetch process exits with the
benign no-op status 1 ("fetch performed, nothing new to bring in"), and
returns an error for every other non-zero exit status. -/
theorem fetch_benign_exit_status (n : Nat) (_hn : n ≠ 0) :
    (Fetch (some (GoError.exitStatus n)) = none ↔ n = 1) ∧
    (n ≠ 1 → Fetch (some (GoError.exitStatus n)) = some (GoError.exitStatus n)) := by
  constructor
  · constructor
    · intro h
      by_contra hne
      simp only [Fetch] at h
      rw [if_neg (fun hc => hne (exit_errString_eq_one.mp hc))] at h
      exact Option.some_ne_none _ h
    · intro h
      subst h
      simp only [Fetch]
      rw [if_pos (exit_errString_eq_one.mpr rfl)]
  · intro h1
    simp only [Fetch]
    rw [if_neg (fun hc => h1 (exit_errString_eq_one.mp hc))]

/-- Witness for C3: exit status 2 is propagated as an error. -/
theorem fetch_benign_exit_status_witness :
    Fetch (some (GoError.exitStatus 2)) = some (GoError.exitStatus 2) :=
  (fetch_benign_exit_status 2 (by decide)).2 (by decide)

/-- Claim C4: if the context finishes first, `ContextRun` kills the process
and returns the context's error — never an exit status of the killed
process; if the process finishes first, its own result (possibly nil) is
returned unchanged. -/
theorem contextRun_cancellation_vs_completion (e : GoError) (r : Option GoError)
    (he : e = GoError.ctxCanceled ∨ e = GoError.ctxDeadlineExceeded) :
    (ContextRun none (RaceOutcome.ctxDone e) = (true, some e) ∧
      ∀ n, (ContextRun none (RaceOutcome.ctxDone e)).2 ≠ some (GoError.exitStatus n)) ∧
    ContextRun none (RaceOutcome.procDone r) = (false, r) := by
  refine ⟨⟨rfl, ?_⟩, rfl⟩
  intro n h
  simp only [ContextRun] at h
  rcases he with h1 | h1 <;> subst h1 <;> simp at h

/-- Witness for C4 at a deadline-exceeded race and a completed process. -/
theorem contextRun_cancellation_vs_completion_witness :
    ContextRun none (RaceOutcome.ctxDone GoError.ctxDeadlineExceeded)
      = (true, some GoError.ctxDeadlineExceeded) ∧
    ContextRun none (RaceOutcome.procDone (some (GoError.exitStatus 9)))
      = (false, some (GoError.exitStatus 9)) := by
  have h := contextRun_cancellation_vs_completion GoError.ctxDeadlineExceeded
    (some (GoError.exitStatus 9)) (Or.inr rfl)
  exact ⟨h.1.1, h.2⟩

/-- Claim C7 (code bug): on tree-listing output with fewer than three
whitespace-delimited tokens — here the empty output produced when no entry
exists at the queried path — `GetSubmoduleRev` does not produce an error
value: the indexing in `strings.Fields(string(parts))[2]` panics with
"index out of range", crashing the process instead of reporting a
per-submodule parse failure. -/
theorem getSubmoduleRev_short_output_panics :
    GetSubmoduleRev (Except.ok "") = RevResult.panicked "index out of range" := rfl

/-- Claim C9: a missing `.gitmodules` file makes `PrepSubmodules` succeed
immediately with zero submodule work performed, while any other
read/parse error of the file is returned as an error. -/
theorem prepSubmodules_missing_gitmodules
    (lsTree : String → Except GoError String) (prep : Submodule → Option GoError) :
    PrepSubmodules (Except.error FileError.notExist) lsTree prep = PrepOutcome.ok [] ∧
    ∀ m, PrepSubmodules (Except.error (FileError.otherError m)) lsTree prep
      = PrepOutcome.err (PrepError.gitmodules m) :=
  ⟨rfl, fun _ => rfl⟩

/-- Claim C10: `SafeCleanup` refuses the root path, the empty path, the
current directory, and any path containing "..", removing nothing in those
cases; for every other path it attempts exactly the recursive removal of
that path. -/
theorem safeCleanup_guard (res : Option GoError) (p : String) :
    ((p = "/" ∨ p = "" ∨ p = "." ∨ goContains p ".." = true) →
      SafeCleanup res p = ([], some (GoError.invalidPath p))) ∧
    (p ≠ "/" → p ≠ "" → p ≠ "." → goContains p ".." = false →
      SafeCleanup res p = ([FsAction.removeAll p], res)) := by
  unfold SafeCleanup
  by_cases hc : p = "/" ∨ p = "" ∨ p = "." ∨ goContains p ".." = true
  · refine ⟨fun _ => ?_, fun h1 h2 h3 h4 => ?_⟩
    · rw [if_pos (by simp only [Bool.or_eq_true, decide_eq_true_eq]; tauto)]
    · exact absurd hc (by simp [h1, h2, h3, h4])
  · refine ⟨fun h => absurd h hc, fun _ _ _ _ => ?_⟩
    rw [if_neg (by simp only [Bool.or_eq_true, decide_eq_true_eq]; tauto)]

/-- Witness for C10: the root path is refused with no removal, an ordinary
relative path is removed. -/
theorem safeCleanup_guard_witness :
    SafeCleanup none "/" = ([], some (GoError.invalidPath "/")) ∧
    SafeCleanup none "a/b" = ([FsAction.removeAll "a/b"], none) :=
  ⟨(safeCleanup_guard none "/").1 (Or.inl rfl),
   (safeCleanup_guard none "a/b").2 (by decide) (by decide) (by decide) (by decide)⟩

/-- Claim C1 (code bug): a 40-character ref of letters beyond f — a
symbolic name failing the fixed-width hexadecimal commit-id test — is
accepted by the code's ShaLike test (the regexp class is [0-9a-zA-Z], not
hexadecimal, and the match is unanchored), so with an existing mirror in
which that name resolves, `LocalMirror` performs no network operation at
all instead of the fetch the claim promises. -/
theorem localMirror_skips_fetch_on_nonhex_ref :
    (LocalMirror ⟨none, none, true, []⟩
        ⟨true, ["gggggggggggggggggggggggggggggggggggggggg"]⟩
        "gggggggggggggggggggggggggggggggggggggggg"
      = (⟨true, ["gggggggggggggggggggggggggggggggggggggggg"]⟩, [], none)) ∧
    isHexCommitId "gggggggggggggggggggggggggggggggggggggggg" = false := by
  constructor
  · decide
  · decide

/-- Claim C2: preparing the same URL and content-addressed ref twice is
idempotent in network operations: with the mirror directory initially
absent, the first `LocalMirror` run performs exactly the one mirror clone,
and the second run — finding the directory present and the commit id in
the object store — performs no clone and no fetch and returns success. -/
theorem localMirror_idempotent_commit_id (env : GitEnv) (st : MirrorState)
    (ref : String) (hdir : st.dirExists = false) (hmk : env.mkdirOk = true)
    (hclone : env.cloneRun = none) (hhex : isHexCommitId ref = true)
    (hrem : ref ∈ env.remoteNames) :
    LocalMirror env st ref
      = (⟨true, env.remoteNames⟩, [NetOp.clone], none) ∧
    LocalMirror env ⟨true, env.remoteNames⟩ ref
      = (⟨true, env.remoteNames⟩, [], none) := by
  constructor
  · simp [LocalMirror, hdir, hmk, hclone]
  · have hhave : AlreadyHaveRef ⟨true, env.remoteNames⟩ ref = true := by
      unfold AlreadyHaveRef
      rw [if_neg (by simp [shaLike_of_hexCommitId hhex])]
      exact List.elem_eq_true_of_mem hrem
    simp [LocalMirror, hhave]

/-- Witness for C2 at a concrete hexadecimal commit id. -/
theorem localMirror_idempotent_commit_id_witness :
    LocalMirror
        ⟨none, none, true, ["aaaaaaaaaaaaaaaaaaaaaaaaaaaaaaaaaaaaaaaa"]⟩
        ⟨false, []⟩ "aaaaaaaaaaaaaaaaaaaaaaaaaaaaaaaaaaaaaaaa"
      = (⟨true, ["aaaaaaaaaaaaaaaaaaaaaaaaaaaaaaaaaaaaaaaa"]⟩, [NetOp.clone], none) ∧
    LocalMirror
        ⟨none, none, true, ["aaaaaaaaaaaaaaaaaaaaaaaaaaaaaaaaaaaaaaaa"]⟩
        ⟨true, ["aaaaaaaaaaaaaaaaaaaaaaaaaaaaaaaaaaaaaaaa"]⟩
        "aaaaaaaaaaaaaaaaaaaaaaaaaaaaaaaaaaaaaaaa"
      = (⟨true, ["aaaaaaaaaaaaaaaaaaaaaaaaaaaaaaaaaaaaaaaa"]⟩, [], none) :=
  localMirror_idempotent_commit_id _ _ _ rfl rfl rfl (by decide)
    (by decide)

/-- Claim C6: for a well-formed tree-entry record
mode SP type SP object-id TAB path, `GetSubmoduleRev` returns the third
whitespace-delimited token, the object id. -/
theorem getSubmoduleRev_third_field (mode typ oid pathStr : String)
    (hm : mode.data ≠ []) (hms : ∀ c ∈ mode.data, goIsSpace c = false)
    (ht : typ.data ≠ []) (hts : ∀ c ∈ typ.data, goIsSpace c = false)
    (ho : oid.data ≠ []) (hos : ∀ c ∈ oid.data, goIsSpace c = false) :
    GetSubmoduleRev (Except.ok (mode ++ " " ++ typ ++ " " ++ oid ++ "\t" ++ pathStr))
      = RevResult.ok oid := by
  have hsp : (" " : String).data = [' '] := rfl
  have htb : ("\t" : String).data = ['\t'] := rfl
  have hdata : (mode ++ " " ++ typ ++ " " ++ oid ++ "\t" ++ pathStr).data
      = mode.data ++ ' ' :: (typ.data ++ ' ' :: (oid.data ++ '\t' :: pathStr.data)) := by
    simp [String.data_append, hsp, htb]
  simp only [GetSubmoduleRev, goFields, hdata]
  rw [goFields_three_words _ _ _ _ hm hms ht hts ho hos]
  simp [string_mk_data]

/-- Witness for C6: the spec's concrete tree entry pins libs/a to
4b825dc642cb6eb9a060e54bf8d69288fbee4904. -/
theorem getSubmoduleRev_third_field_witness :
    GetSubmoduleRev
        (Except.ok "100644 blob 4b825dc642cb6eb9a060e54bf8d69288fbee4904\tlibs/a")
      = RevResult.ok "4b825dc642cb6eb9a060e54bf8d69288fbee4904" :=
  getSubmoduleRev_third_field "100644" "blob"
    "4b825dc642cb6eb9a060e54bf8d69288fbee4904" "libs/a"
    (by decide) (by decide) (by decide) (by decide) (by decide) (by decide)

/-- Counterexample to claim C8: two distinct resolved commit ids that share
their first ten characters are mapped to the same checkout directory, so
different resolved commits can collide. -/
theorem checkoutPath_prefix_collision :
    ("aaaaaaaaaa000000000000000000000000000000" : String)
      ≠ "aaaaaaaaaa111111111111111111111111111111" ∧
    checkoutPath "/mirror" "aaaaaaaaaa000000000000000000000000000000"
      = checkoutPath "/mirror" "aaaaaaaaaa111111111111111111111111111111" := by
  constructor
  · decide
  · decide

/-- Claim C8 as amended: the checkout directory is a deterministic function
of the resolved commit id through its 10-character prefix — two
invocations on the same mirror yield the same checkout directory exactly
when the resolved ids agree on their first ten characters. -/
theorem checkoutPath_eq_iff_same_short_rev (gitDir r1 r2 : String) :
    checkoutPath gitDir r1 = checkoutPath gitDir r2
      ↔ r1.data.take 10 = r2.data.take 10 := by
  unfold checkoutPath shortRev
  rw [goPathJoin_right_inj, goPathJoin_right_inj]
  exact ⟨fun h => congrArg String.data h, fun h => congrArg String.mk h⟩

theorem multipleErrors_eq_none {ε : Type} (errs : List (Option ε)) :
    MultipleErrors errs = none ↔ errs.filterMap id = [] := by
  unfold MultipleErrors
  by_cases h : (errs.filterMap id).length = 0
  · simp only [if_pos h]
    simp [List.length_eq_zero.mp h]
  · simp only [if_neg h]
    constructor
    · intro hc
      exact absurd hc (by simp)
    · intro hc
      exact absurd (by simp [hc]) h

theorem multipleErrors_eq_some {ε : Type} (errs : List (Option ε)) (l : List ε)
    (h : MultipleErrors errs = some l) : l = errs.filterMap id ∧ l ≠ [] := by
  unfold MultipleErrors at h
  by_cases h0 : (errs.filterMap id).length = 0
  · rw [if_pos h0] at h
    exact absurd h (by simp)
  · rw [if_neg h0] at h
    have hl : l = errs.filterMap id := (Option.some_inj.mp h).symm
    refine ⟨hl, ?_⟩
    intro hnil
    rw [hl] at hnil
    exact h0 (by simp [hnil])

/-- Claim C5: `PrepSubmodules` drains the per-submodule outcome channel,
discarding nil outcomes; it succeeds exactly when no submodule's
preparation produced an error, and otherwise returns one composite error
listing every failing submodule's error annotated with its path — each
submodule's outcome is the independent result of its own preparation, so
one failure neither removes a sibling from the work list nor from the
composite. -/
theorem prepSubmodules_error_aggregation (subs pinned : List Submodule)
    (lsTree : String → Except GoError String) (prep : Submodule → Option GoError)
    (hrev : GetSubmoduleRevs lsTree subs = RevsResult.ok pinned) :
    (PrepSubmodules (Except.ok subs) lsTree prep = PrepOutcome.ok pinned
        ↔ ∀ sm ∈ pinned, prep sm = none) ∧
    ∀ l, PrepSubmodules (Except.ok subs) lsTree prep
        = PrepOutcome.err (PrepError.multiple l) →
      l = pinned.filterMap (fun sm => (prep sm).map fun e => (sm.Path, e)) ∧
        l ≠ [] := by
  have hfm : (pinned.map fun sm => (prep sm).map fun e => (sm.Path, e)).filterMap id
      = pinned.filterMap fun sm => (prep sm).map fun e => (sm.Path, e) := by
    rw [List.filterMap_map]
    rfl
  simp only [PrepSubmodules, hrev]
  rcases hM : MultipleErrors (pinned.map fun sm => (prep sm).map fun e => (sm.Path, e))
    with _ | l₀
  · have hnil : (pinned.filterMap fun sm => (prep sm).map fun e => (sm.Path, e)) = [] := by
      rw [← hfm]
      exact (multipleErrors_eq_none _).mp hM
    constructor
    · constructor
      · intro _ sm hsm
        have := List.filterMap_eq_nil_iff.mp hnil sm hsm
        exact Option.map_eq_none'.mp this
      · intro _
        rfl
    · intro l hl
      exact absurd hl (by simp)
  · obtain ⟨hl₀, hl₀ne⟩ := multipleErrors_eq_some _ _ hM
    rw [hfm] at hl₀
    constructor
    · constructor
      · intro h
        exact absurd h (by simp)
      · intro hall
        exfalso
        apply hl₀ne
        rw [hl₀]
        apply List.filterMap_eq_nil_iff.mpr
        intro sm hsm
        simp [hall sm hsm]
    · intro l hl
      have : l₀ = l := by
        have := PrepOutcome.err.inj hl
        exact PrepError.multiple.inj this
      subst this
      exact ⟨hl₀, hl₀ne⟩

/-- Witness for C5: of three sibling submodules exactly libs/b fails, and
the composite error names exactly that path with its underlying error. -/
theorem prepSubmodules_error_aggregation_witness :
    PrepSubmodules (Except.ok subsW) lsTreeW prepW
      = PrepOutcome.err (PrepError.multiple [("libs/b", GoError.exitStatus 128)]) ∧
    [("libs/b", GoError.exitStatus 128)]
      = pinnedW.filterMap (fun sm => (prepW sm).map fun e => (sm.Path, e)) := by
  refine ⟨by decide, ?_⟩
  exact ((prepSubmodules_error_aggregation subsW pinnedW lsTreeW prepW (by decide)).2
    [("libs/b", GoError.exitStatus 128)] (by decide)).1

end GitPrep
